import Mathlib

/-!
Verification development for the kubeface job orchestrator and its
storage-coordination protocol.

The definitions below are a shallow embedding of the repository code:
  * `bucket_storage` embeds src/kubeface/bucket_storage.py (the retry
    decorator `robustify`, `split_bucket_and_name`, and the object-store
    operations `list_contents`, `move`, `put`, `get`, `delete`), with the
    Google Cloud Storage service modelled as an association list from
    (bucket, object name) to byte contents.
  * `naming`, `serialization` and the job-level `storage` dispatcher are
    modules of the repository that are not part of the given source files;
    they are modelled from the specification (each such definition carries a
    doc comment starting with "Modelled from the spec:").
  * `job` embeds src/kubeface/job.py (the Job class: submit_one_task,
    get_completed_tasks, get_running_tasks, wait, results).
  * `local_process_backend` embeds src/kubeface/local_process_backend.py.

Python exceptions are modelled with `Except`; `time.sleep` calls are
recorded (the slept durations in seconds) rather than performed; machine
floats do not occur (the only float of the source, FIRST_RETRY_SLEEP = 2.0,
is only ever raised to integer powers, which are exact).
-/

deriving instance DecidableEq for Except

/-- Python exceptions that the modelled code can raise. -/
inductive PyErr where
  /-- `ValueError`, with its message. Raised by `split_bucket_and_name` for a
  url that does not start with "gs://", and by tuple destructuring when the
  split yields one part instead of two. -/
  | valueError (msg : String)
  /-- An HTTP error from the storage service (e.g. 404 for a missing object). -/
  | httpError (code : Nat)
  /-- `TypeError`: a Python call whose positional arguments do not match the
  signature of the function being called. -/
  | typeError
deriving DecidableEq

/-- bucket_storage.py line 15: `RETRIES_BEFORE_FAILURE = 12`. -/
def RETRIES_BEFORE_FAILURE : Nat := 12

/-- bucket_storage.py line 16: `FIRST_RETRY_SLEEP = 2.0`. The source value is
a float, but it is only ever raised to integer powers (all exact), so it is
modelled as the natural number 2. -/
def FIRST_RETRY_SLEEP : Nat := 2

/-- The observable outcome of running `robustify`-wrapped code: the returned
or raised result, the sequence of sleep durations (seconds) performed
between attempts, and the total number of attempts (calls of the wrapped
function) made. -/
structure RetryResult (α : Type) where
  result : Except PyErr α
  sleeps : List Nat
  attempts : Nat

/-- The loop body of `robustify` (bucket_storage.py lines 41-62). The wrapped
function is modelled as `f : Nat → Except PyErr α` giving the outcome of the
n-th call (0-based). `error_num` is the source's failure counter; `fuel` is
`RETRIES_BEFORE_FAILURE - error_num`, so `fuel = 0` at a failure is exactly
the source's `error_num > RETRIES_BEFORE_FAILURE` re-raise condition. On a
retried failure the source sleeps `FIRST_RETRY_SLEEP ** error_num` seconds
(with the incremented `error_num`), which is recorded in `sleeps`. -/
def robust_function {α : Type} (f : Nat → Except PyErr α) :
    Nat → Nat → Nat → RetryResult α
  | fuel, attempt, error_num =>
    match f attempt, fuel with
    | Except.ok a, _ => ⟨Except.ok a, [], 1⟩
    | Except.error e, 0 => ⟨Except.error e, [], 1⟩
    | Except.error _, Nat.succ fuel =>
      let r := robust_function f fuel (attempt + 1) (error_num + 1)
      ⟨r.result, FIRST_RETRY_SLEEP ^ (error_num + 1) :: r.sleeps, r.attempts + 1⟩

/-- bucket_storage.py lines 40-63: the bounded-retry decorator. -/
def robustify {α : Type} (f : Nat → Except PyErr α) : RetryResult α :=
  robust_function f RETRIES_BEFORE_FAILURE 0 0

/-- `p` is a prefix of `s` on character lists (the model of Python
`str.startswith` and of the server-side prefix filter of objects.list). -/
def pfx_le : List Char → List Char → Bool
  | [], _ => true
  | _ :: _, [] => false
  | a :: as, b :: bs => a == b && pfx_le as bs

/-- Python `url.startswith(p)`. -/
def startswith (s p : String) : Bool := pfx_le p.data s.data

/-- Python `s.split("/", 1)` on character lists: split at the first '/',
yielding one part (no '/') or two parts. -/
def split_first : List Char → List Char → List String
  | [], acc => [String.mk acc.reverse]
  | c :: rest, acc =>
    if c = '/' then [String.mk acc.reverse, String.mk rest]
    else split_first rest (c :: acc)

/-- bucket_storage.py lines 66-69: `split_bucket_and_name`. Raises ValueError
for a url that does not start with "gs://"; otherwise returns
`url[len("gs://"):].split("/", 1)` (one or two parts). -/
def split_bucket_and_name (url : String) : Except PyErr (List String) :=
  if startswith url "gs://" then
    Except.ok (split_first (url.data.drop 5) [])
  else
    Except.error (PyErr.valueError ("Not a gs:// url: " ++ url))

/-- Association-list lookup (first match wins), the model of reading a keyed
store. -/
def slookup {κ ν : Type} [DecidableEq κ] : List (κ × ν) → κ → Option ν
  | [], _ => none
  | (k, v) :: rest, key => if k = key then some v else slookup rest key

/-- Remove every entry with the given key. -/
def serase {κ ν : Type} [DecidableEq κ] (s : List (κ × ν)) (key : κ) :
    List (κ × ν) :=
  s.filter (fun e => decide (e.1 ≠ key))

/-- Overwrite-insert: the new entry shadows and removes any previous entry
with the same key. -/
def sinsert {κ ν : Type} [DecidableEq κ] (s : List (κ × ν)) (key : κ) (v : ν) :
    List (κ × ν) :=
  (key, v) :: serase s key

/-- The Google Cloud Storage service state: (bucket, object name) to byte
contents (bytes as naturals). -/
abbrev BStore := List ((String × String) × List Nat)

namespace bucket_storage

/-- The result of the service's objects.list request: the names of the
objects of `bucket` whose name has `fpx` as a prefix, in store order. The
source follows pagination to exhaustion (lines 92-95), so the model returns
the complete set in one list. -/
def gcsList (store : BStore) (bucket fpx : String) : List String :=
  (store.filter (fun e => decide (e.1.1 = bucket) && pfx_le fpx.data e.1.2.data)).map
    (fun e => e.1.2)

/-- bucket_storage.py lines 72-96: `list_contents`. A one-part split (no key
component) lists the whole bucket under the empty prefix; a two-part split
lists under the key prefix. -/
def list_contents (store : BStore) (p : String) : Except PyErr (List String) :=
  match split_bucket_and_name p with
  | Except.error e => Except.error e
  | Except.ok splitted =>
    match splitted with
    | [bucket_name] => Except.ok (gcsList store bucket_name "")
    | [bucket_name, file_name_pfx] => Except.ok (gcsList store bucket_name file_name_pfx)
    | _ => Except.error (PyErr.valueError "too many values to unpack")

/-- bucket_storage.py lines 99-118: `move`. Splits source and dest (a
one-part split fails the tuple destructuring with ValueError), then issues a
rewrite with `destinationBucket=bucket_name` — the SOURCE bucket; the
computed `bucket_name2` is unused, exactly as in the source — followed by a
delete of the source object. A missing source object makes the rewrite
request fail (modelled as HTTP 404). -/
def move (store : BStore) (source dest : String) : Except PyErr BStore :=
  match split_bucket_and_name source with
  | Except.error e => Except.error e
  | Except.ok ps =>
    match ps with
    | [bucket_name, source_object] =>
      match split_bucket_and_name dest with
      | Except.error e => Except.error e
      | Except.ok pd =>
        match pd with
        | [_bucket_name2, dest_object] =>
          match slookup store (bucket_name, source_object) with
          | none => Except.error (PyErr.httpError 404)
          | some v =>
            Except.ok
              (serase (sinsert store (bucket_name, dest_object) v)
                (bucket_name, source_object))
        | _ => Except.error (PyErr.valueError "not enough values to unpack (expected 2, got 1)")
    | _ => Except.error (PyErr.valueError "not enough values to unpack (expected 2, got 1)")

/-- bucket_storage.py lines 121-165: `put`. The tuple destructuring of the
two-part split fails with ValueError on a one-part split; otherwise the
object is inserted (overwrite). The optional ACL entries of the source only
shape the request metadata, not the stored contents, and are not modelled. -/
def put (store : BStore) (name : String) (contents : List Nat) :
    Except PyErr BStore :=
  match split_bucket_and_name name with
  | Except.error e => Except.error e
  | Except.ok parts =>
    match parts with
    | [bucket_name, file_name] =>
      Except.ok (sinsert store (bucket_name, file_name) contents)
    | _ => Except.error (PyErr.valueError "not enough values to unpack (expected 2, got 1)")

/-- bucket_storage.py lines 168-188: `get`. Destructures the split (ValueError
on a one-part split), then downloads the object (modelled as HTTP 404 when
absent). -/
def get (store : BStore) (name : String) : Except PyErr (List Nat) :=
  match split_bucket_and_name name with
  | Except.error e => Except.error e
  | Except.ok parts =>
    match parts with
    | [bucket_name, file_name] =>
      match slookup store (bucket_name, file_name) with
      | some v => Except.ok v
      | none => Except.error (PyErr.httpError 404)
    | _ => Except.error (PyErr.valueError "not enough values to unpack (expected 2, got 1)")

/-- bucket_storage.py lines 191-195: `delete`. Destructures the split
(ValueError on a one-part split), then issues the delete request (HTTP 404
when the object is absent). -/
def delete (store : BStore) (name : String) : Except PyErr BStore :=
  match split_bucket_and_name name with
  | Except.error e => Except.error e
  | Except.ok parts =>
    match parts with
    | [bucket_name, file_name] =>
      match slookup store (bucket_name, file_name) with
      | some _ => Except.ok (serase store (bucket_name, file_name))
      | none => Except.error (PyErr.httpError 404)
    | _ => Except.error (PyErr.valueError "not enough values to unpack (expected 2, got 1)")

end bucket_storage

/-- Decimal digit to its character ('0'..'9' for 0..9). -/
def digitChar (d : Nat) : Char := Char.ofNat (48 + d)

/-- Little-endian base-10 digits of `n`, with explicit fuel (any fuel of at
least `n` yields the digits). -/
def natDigitsAux : Nat → Nat → List Nat
  | 0, _ => []
  | fuel + 1, n => if n = 0 then [] else n % 10 :: natDigitsAux fuel (n / 10)

/-- Little-endian base-10 digits of `n` (empty for 0). -/
def natDigits (n : Nat) : List Nat := natDigitsAux n n

/-- Decode little-endian base-10 digits back to the number. -/
def undigits : List Nat → Nat
  | [] => 0
  | d :: ds => d + 10 * undigits ds

/-- Render a natural number in decimal ("" for 0; only injectivity and the
digit alphabet matter to the model). -/
def natToStr (n : Nat) : String := String.mk ((natDigits n).reverse.map digitChar)

namespace naming

/-- Modelled from the spec: `makeTaskName(cacheKey, index) -> TaskName`, the
deterministic task name, injective in the index for a fixed cache key
(naming.py is not among the given source files). -/
def make_task_name (cache_key : String) (index : Nat) : String :=
  cache_key ++ "-task-" ++ natToStr index

/-- Modelled from the spec: `taskInputPath(taskName)`, a deterministic
storage key for the serialized task payload. -/
def task_input_name (task_name : String) : String := task_name ++ ".input"

/-- Modelled from the spec: `taskResultPath(taskName)`, a deterministic
storage key for the serialized result. -/
def task_result_name (task_name : String) : String := task_name ++ ".result"

/-- Modelled from the spec: `taskResultPrefix(cacheKey)` (source name
`task_result_prefix`), a storage-key prefix covering exactly the result
paths of the tasks sharing the cache key. -/
def task_result_pfx (cache_key : String) : String := cache_key ++ "-task-"

/-- The path component after the last '/' of a character list. -/
def basename (l : List Char) : List Char :=
  (l.reverse.takeWhile (fun c => c != '/')).reverse

/-- Modelled from the spec: `taskNameFromResultPath(path) -> TaskName`
(source name `task_name_from_result_name`), the inverse of the result-path
derivation: it takes the path component after the last '/' and strips the
".result" suffix, so it round-trips every path produced by
`task_result_name` (also under a directory prefix). -/
def task_name_from_result_name (s : String) : String :=
  String.mk ((basename s.data).take ((basename s.data).length - (".result" : String).data.length))

end naming

namespace serialization

/-- Modelled from the spec: `dump` serializes an opaque task or result value
(values are modelled as naturals and the format as the identity, which is
all the orchestrator observes: `load` after `dump` gives the value back). -/
def dump (v : Nat) : Nat := v

/-- Modelled from the spec: `load`, the inverse of `dump`. -/
def load (v : Nat) : Nat := v

end serialization

/-- The job-level storage state as seen through the `storage` dispatcher
module (not among the given source files): full storage path to serialized
contents. -/
abbrev JStore := List (String × Nat)

/-- Modelled from the spec: the storage client's `get` as the job uses it —
the contents stored at the full path, if present. -/
def js_get : JStore → String → Option Nat
  | [], _ => none
  | (k, v) :: rest, key => if k = key then some v else js_get rest key

/-- Modelled from the spec: the storage client's `delete` at a full path. -/
def js_delete (s : JStore) (key : String) : JStore :=
  s.filter (fun e => decide (e.1 ≠ key))

/-- Modelled from the spec: the storage client's `put` (overwrite) at a full
path. -/
def js_put (s : JStore) (key : String) (v : Nat) : JStore :=
  (key, v) :: js_delete s key

/-- Modelled from the spec: the storage client's `list(prefix)` — the paths
of the stored objects that extend the prefix, in store order (pagination is
followed to exhaustion, so the whole result set comes back as one list). -/
def js_list (s : JStore) (p : String) : List String :=
  (s.filter (fun e => pfx_le p.data e.1.data)).map (fun e => e.1)

/-- job.py lines 58-59: `Job.storage_path`, as a function of the prefix. -/
def spath (storage_pfx filename : String) : String :=
  storage_pfx ++ "/" ++ filename

/-- The in-memory state of a Job (job.py lines 13-46) together with the
observable effects of a run: the storage state and the calls made to the
backend. `tasks_iter` is the remaining (lazily pulled) task source;
`backend_calls` records each `backend.submit_task(task_name, task_input,
task_output)` invocation in order. The status writer is external and not
modelled; `num_tasks` is informational only and omitted. -/
structure JobState where
  cache_key : String
  storage_pfx : String
  max_simultaneous_tasks : Nat
  cleanup : Bool
  tasks_iter : List Nat
  submitted_tasks : List String
  reused_tasks : List String
  backend_calls : List (String × String × String)
  store : JStore
deriving DecidableEq

namespace job

/-- job.py lines 14-46: `Job.__init__` — `submitted_tasks` and
`reused_tasks` start empty; the caller supplies the cache key (the source
generates a fresh one when none is given, which the model treats as
caller-supplied). -/
def init (cache_key storage_pfx : String) (max_simultaneous_tasks : Nat)
    (tasks : List Nat) (store : JStore) (cleanup : Bool) : JobState :=
  { cache_key := cache_key
    storage_pfx := storage_pfx
    max_simultaneous_tasks := max_simultaneous_tasks
    cleanup := cleanup
    tasks_iter := tasks
    submitted_tasks := []
    reused_tasks := []
    backend_calls := []
    store := store }

/-- job.py lines 96-102: `Job.get_completed_tasks` — list the result prefix
and map each listed name through `task_name_from_result_name` (the source
builds a set; the model keeps the list, whose membership is the set). -/
def get_completed_tasks (j : JobState) : List String :=
  (js_list j.store (spath j.storage_pfx (naming.task_result_pfx j.cache_key))).map
    naming.task_name_from_result_name

/-- job.py lines 104-107: `Job.get_running_tasks` —
`set(submitted_tasks).difference(completed_tasks)`; the model dedups the
filtered list so its length is the set's size. -/
def get_running_tasks (j : JobState) (completed_tasks : List String) : List String :=
  (j.submitted_tasks.filter (fun t => decide (t ∉ completed_tasks))).dedup

/-- job.py lines 61-94: `Job.submit_one_task`. Pulls the next task (returns
`false` when the source is exhausted); derives the task name from the cache
key and `len(submitted_tasks)`; when the name is in the completed set,
records it as reused (no upload, no backend call); otherwise uploads the
serialized task to its input path and invokes
`backend.submit_task(task_name, task_input, task_output)`. In both cases the
name is appended to `submitted_tasks`. -/
def submit_one_task (j : JobState) (completed_tasks : Option (List String)) :
    Bool × JobState :=
  match j.tasks_iter with
  | [] => (false, j)
  | task :: rest =>
    let completed := match completed_tasks with
      | none => get_completed_tasks j
      | some c => c
    let task_name := naming.make_task_name j.cache_key j.submitted_tasks.length
    let task_input := spath j.storage_pfx (naming.task_input_name task_name)
    let task_output := spath j.storage_pfx (naming.task_result_name task_name)
    if task_name ∈ completed then
      (true, { j with
        tasks_iter := rest
        reused_tasks := j.reused_tasks ++ [task_name]
        submitted_tasks := j.submitted_tasks ++ [task_name] })
    else
      (true, { j with
        tasks_iter := rest
        store := js_put j.store task_input (serialization.dump task)
        backend_calls := j.backend_calls ++ [(task_name, task_input, task_output)]
        submitted_tasks := j.submitted_tasks ++ [task_name] })

/-- Repeated `submit_one_task` with fuel (each call with a non-empty source
consumes one task, so fuel `tasks_iter.length` drains the source). -/
def run_all_fuel : Nat → JobState → JobState
  | 0, j => j
  | n + 1, j => run_all_fuel n (submit_one_task j none).2

/-- The submission sequence of a whole job run: pull and submit every task
of the source, in pull order (the orchestration of job.py `wait`, viewed as
the sequence of `submit_one_task` calls it makes until the source is
exhausted). -/
def run_all (j : JobState) : JobState := run_all_fuel j.tasks_iter.length j

/-- job.py lines 126: `all(self.submit_one_task(completed_tasks) for _ in
range(tasks_to_submit))` — `all` over a generator short-circuits at the
first `False` (exhausted source), so at most `n` tasks are pulled and each
pull sees the same completed-set snapshot. -/
def submit_batch (j : JobState) (completed_tasks : List String) :
    Nat → Bool × JobState
  | 0 => (true, j)
  | n + 1 =>
    match submit_one_task j (some completed_tasks) with
    | (true, j2) => submit_batch j2 completed_tasks n
    | (false, j2) => (false, j2)

/-- What one iteration of the `Job.wait` outer loop (job.py lines 114-136)
does: sleep for the poll interval, enter the drain loop (source exhausted),
or submit a batch. -/
inductive WaitAction where
  | sleepPoll
  | drain
  | batch (submitted_now : Nat)
deriving DecidableEq

/-- One iteration of the `Job.wait` outer loop, job.py lines 114-136: a
fresh listing gives `completed_tasks`, then `running_tasks`, then
`tasks_to_submit = max(0, max_simultaneous_tasks - len(running_tasks))`
(Nat subtraction is the `max(0, ·)`); zero slots sleeps and repolls,
otherwise up to `tasks_to_submit` tasks are submitted against that same
snapshot, entering the drain loop when the source runs out. -/
def wait_poll (j : JobState) : WaitAction × JobState :=
  let completed_tasks := get_completed_tasks j
  let running_tasks := get_running_tasks j completed_tasks
  let tasks_to_submit := j.max_simultaneous_tasks - running_tasks.length
  if tasks_to_submit = 0 then
    (WaitAction.sleepPoll, j)
  else
    match submit_batch j completed_tasks tasks_to_submit with
    | (true, j2) =>
      (WaitAction.batch (j2.submitted_tasks.length - j.submitted_tasks.length), j2)
    | (false, j2) => (WaitAction.drain, j2)

/-- Errors of result retrieval. -/
inductive JobErr where
  /-- job.py line 140: `RuntimeError("Not all tasks have completed")` — the
  condition the spec names `JobNotComplete`. -/
  | jobNotComplete
  /-- A storage `get` failed while downloading a result object. -/
  | storageError
deriving DecidableEq

/-- The loop body of `Job.results` (job.py lines 141-147): for each submitted
task in order, download and decode its result object, deleting it afterwards
when `cleanup` is set. -/
def results_loop (storage_pfx : String) (cleanup : Bool) :
    JStore → List String → Except JobErr (List Nat)
  | _, [] => Except.ok []
  | st, task_name :: rest =>
    let result_file := spath storage_pfx (naming.task_result_name task_name)
    match js_get st result_file with
    | none => Except.error JobErr.storageError
    | some v =>
      let st2 := if cleanup then js_delete st result_file else st
      match results_loop storage_pfx cleanup st2 rest with
      | Except.ok vs => Except.ok (serialization.load v :: vs)
      | Except.error e => Except.error e

/-- job.py lines 138-147: `Job.results` — raises when any task is still
running, otherwise yields the decoded results in `submitted_tasks` order
(the lazy generator is modelled as the full sequence it yields). -/
def results (j : JobState) : Except JobErr (List Nat) :=
  if get_running_tasks j (get_completed_tasks j) = [] then
    results_loop j.storage_pfx j.cleanup j.store j.submitted_tasks
  else
    Except.error job.JobErr.jobNotComplete

end job

namespace local_process_backend

/-- local_process_backend.py lines 7-15: `run_task_args` — the argument
vector of the worker process. -/
def run_task_args (task_input task_output : String) (delete_input : Bool) :
    List String :=
  ["_kubeface-run-task", task_input, task_output] ++
    (if delete_input then ["--delete-input"] else [])

/-- local_process_backend.py lines 34-40: `LocalProcessBackend.submit_task`,
whose def line is `def submit_task(self, task_input, task_output)` — TWO
positional parameters besides self. Modelled at Python call semantics: the
positional argument list either destructures into (task_input, task_output)
and launches the worker with `run_task_args`, or the call raises TypeError. -/
def submit_task_pycall (delete_input : Bool) (args : List String) :
    Except PyErr (List String) :=
  match args with
  | [task_input, task_output] =>
    Except.ok (run_task_args task_input task_output delete_input)
  | _ => Except.error PyErr.typeError

end local_process_backend

/-- The positional-argument list of the orchestrator's backend call
`self.backend.submit_task(task_name, task_input, task_output)` (job.py
line 91), from the recorded call triple. -/
def pycall_args (c : String × String × String) : List String :=
  [c.1, c.2.1, c.2.2]

/-! ## Retry-wrapper lemmas -/

/-- Exhaustion shape of the retry loop when every attempt fails: the result
is the last attempt's error, the sleeps are `FIRST_RETRY_SLEEP ^ k` for the
`fuel` exponents after `error_num`, and `fuel + 1` attempts are made. -/
theorem robust_function_all_error {α : Type} (f : Nat → Except PyErr α)
    (g : Nat → PyErr) (h : ∀ n, f n = Except.error (g n)) :
    ∀ (fuel a e : Nat), robust_function f fuel a e =
      ⟨Except.error (g (a + fuel)),
       (List.range' (e + 1) fuel).map (fun k => FIRST_RETRY_SLEEP ^ k),
       fuel + 1⟩ := by
  intro fuel
  induction fuel with
  | zero =>
    intro a e
    rw [robust_function.eq_def]
    dsimp only
    rw [h a]
    simp
  | succ m ih =>
    intro a e
    rw [robust_function.eq_def]
    dsimp only
    rw [h a]
    dsimp only
    simp only [ih (a + 1) (e + 1), List.range'_succ, List.map_cons]
    have hae : a + 1 + m = a + (m + 1) := by omega
    simp [hae]

/-- The retry wrapper applied to a deterministic failure (the same error on
every attempt). -/
theorem robustify_const_error {α : Type} (e : PyErr) :
    robustify (fun _ => (Except.error e : Except PyErr α)) =
      ⟨Except.error e,
       (List.range' 1 RETRIES_BEFORE_FAILURE).map (fun k => FIRST_RETRY_SLEEP ^ k),
       RETRIES_BEFORE_FAILURE + 1⟩ := by
  have h := robust_function_all_error (fun _ => (Except.error e : Except PyErr α))
    (fun _ => e) (fun _ => rfl) RETRIES_BEFORE_FAILURE 0 0
  simpa [robustify] using h

/-- C1 (corrected): when every underlying attempt of a robustified storage
operation fails, the wrapper sleeps `FIRST_RETRY_SLEEP ^ errorNum` seconds
after the errorNum-th failure (errorNum = 1, 2, ..., RETRIES_BEFORE_FAILURE)
and gives up after `RETRIES_BEFORE_FAILURE + 1 = 13` attempts in total (the
initial call plus 12 retries) — not after 12 — re-raising the final
attempt's underlying error itself to the caller. -/
theorem C1_retry_exhaustion {α : Type} (f : Nat → Except PyErr α)
    (g : Nat → PyErr) (h : ∀ n, f n = Except.error (g n)) :
    robustify f =
      ⟨Except.error (g RETRIES_BEFORE_FAILURE),
       (List.range' 1 RETRIES_BEFORE_FAILURE).map (fun k => FIRST_RETRY_SLEEP ^ k),
       RETRIES_BEFORE_FAILURE + 1⟩ := by
  have h2 := robust_function_all_error f g h RETRIES_BEFORE_FAILURE 0 0
  simpa [robustify] using h2

/-- Witness for C1 at a concrete always-failing operation: 13 attempts are
made and the sleeps are 2^1, ..., 2^12 seconds. -/
theorem C1_retry_exhaustion_witness :
    (robustify (fun n => (Except.error (PyErr.httpError n) : Except PyErr Unit))).attempts = 13
    ∧ (robustify (fun n => (Except.error (PyErr.httpError n) : Except PyErr Unit))).sleeps
        = [2, 4, 8, 16, 32, 64, 128, 256, 512, 1024, 2048, 4096] := by
  rw [C1_retry_exhaustion (fun n => (Except.error (PyErr.httpError n) : Except PyErr Unit))
    PyErr.httpError (fun n => rfl)]
  exact ⟨by decide, by decide⟩

/-- Counterexample to C1 as stated: on an always-failing operation the
wrapper makes 13 attempts before giving up, not the claimed 12
(`RETRIES_BEFORE_FAILURE`). -/
theorem C1_counterexample :
    (robustify (fun _ => (Except.error (PyErr.valueError "boom") : Except PyErr Unit))).attempts = 13
    ∧ ¬ (robustify (fun _ => (Except.error (PyErr.valueError "boom") : Except PyErr Unit))).attempts
        = RETRIES_BEFORE_FAILURE := by
  exact ⟨by decide, by decide⟩

/-! ## Malformed and key-less storage paths (C3, C10) -/

/-- C3 (corrected): a malformed (non-"gs://") storage path makes every
storage-client operation (list, put, get, delete, move) raise
`ValueError("Not a gs:// url: ...")` — but the parse runs INSIDE the
function wrapped by `robustify`, so the failure is retried like any other:
the robustified operation makes `RETRIES_BEFORE_FAILURE + 1 = 13` attempts
with the full exponential-backoff sleep schedule before the ValueError
propagates. It is not failed fast. -/
theorem C3_malformed_path_retried (store : BStore) (url dst : String)
    (contents : List Nat) (h : startswith url "gs://" = false) :
    bucket_storage.list_contents store url
        = Except.error (PyErr.valueError ("Not a gs:// url: " ++ url))
    ∧ bucket_storage.put store url contents
        = Except.error (PyErr.valueError ("Not a gs:// url: " ++ url))
    ∧ bucket_storage.get store url
        = Except.error (PyErr.valueError ("Not a gs:// url: " ++ url))
    ∧ bucket_storage.delete store url
        = Except.error (PyErr.valueError ("Not a gs:// url: " ++ url))
    ∧ bucket_storage.move store url dst
        = Except.error (PyErr.valueError ("Not a gs:// url: " ++ url))
    ∧ (robustify (fun _ => bucket_storage.get store url)).attempts
        = RETRIES_BEFORE_FAILURE + 1
    ∧ (robustify (fun _ => bucket_storage.get store url)).sleeps
        = (List.range' 1 RETRIES_BEFORE_FAILURE).map (fun k => FIRST_RETRY_SLEEP ^ k) := by
  have hget : bucket_storage.get store url
      = Except.error (PyErr.valueError ("Not a gs:// url: " ++ url)) := by
    simp [bucket_storage.get, split_bucket_and_name, h]
  have hrob := robustify_const_error (α := List Nat)
    (PyErr.valueError ("Not a gs:// url: " ++ url))
  have hrw : (fun (_ : Nat) => bucket_storage.get store url)
      = (fun (_ : Nat) => (Except.error (PyErr.valueError ("Not a gs:// url: " ++ url)) :
          Except PyErr (List Nat))) := by
    funext n
    exact hget
  refine ⟨?_, ?_, hget, ?_, ?_, ?_, ?_⟩
  · simp [bucket_storage.list_contents, split_bucket_and_name, h]
  · simp [bucket_storage.put, split_bucket_and_name, h]
  · simp [bucket_storage.delete, split_bucket_and_name, h]
  · simp [bucket_storage.move, split_bucket_and_name, h]
  · rw [hrw, hrob]
  · rw [hrw, hrob]

/-- Witness for C3 at the concrete malformed path "http://foo/bar": the
robustified `get` makes 13 attempts (it is retried, with nonempty sleeps). -/
theorem C3_malformed_path_retried_witness :
    startswith "http://foo/bar" "gs://" = false
    ∧ (robustify (fun _ => bucket_storage.get [] "http://foo/bar")).attempts = 13 := by
  refine ⟨by decide, ?_⟩
  have h := (C3_malformed_path_retried [] "http://foo/bar" "gs://b/x" [1]
    (by decide)).2.2.2.2.2.1
  simpa using h

/-- Counterexample to C3 as stated ("fails fast ... and is not retried"): on
the malformed path "http://foo/bar", the robustified `get` sleeps between
attempts (the sleep list is nonempty — 12 sleeps) and makes 13 attempts, so
the malformed-path failure IS retried. -/
theorem C3_counterexample :
    ¬ (robustify (fun _ => bucket_storage.get [] "http://foo/bar")).sleeps = []
    ∧ (robustify (fun _ => bucket_storage.get [] "http://foo/bar")).attempts = 13 := by
  exact ⟨by decide, by decide⟩

/-- `pfx_le` holds of a list and any extension of it. -/
theorem pfx_le_append : ∀ (l r : List Char), pfx_le l (l ++ r) = true := by
  intro l
  induction l with
  | nil => intro r; rfl
  | cons a as ih => intro r; simp [pfx_le, ih r]

/-- `pfx_le` is reflexive. -/
theorem pfx_le_refl (l : List Char) : pfx_le l l = true := by
  have h := pfx_le_append l []
  simpa using h

/-- C10 (confirmed): for a path with scheme and bucket but no key component
(a one-part split, e.g. "gs://bucket"), `list_contents` succeeds and lists
the whole bucket under the empty prefix, while `get`, `put` and `delete`
fail destructuring the split into two parts (ValueError) — and that failure
happens inside the retry wrapper, so it is retried (13 attempts, with
sleeps) rather than rejected fast as invalid input. -/
theorem C10_bucket_only_path (store : BStore) (url b : String)
    (contents : List Nat) (h : split_bucket_and_name url = Except.ok [b]) :
    bucket_storage.list_contents store url
        = Except.ok ((store.filter (fun e => decide (e.1.1 = b))).map (fun e => e.1.2))
    ∧ bucket_storage.get store url
        = Except.error (PyErr.valueError "not enough values to unpack (expected 2, got 1)")
    ∧ bucket_storage.put store url contents
        = Except.error (PyErr.valueError "not enough values to unpack (expected 2, got 1)")
    ∧ bucket_storage.delete store url
        = Except.error (PyErr.valueError "not enough values to unpack (expected 2, got 1)")
    ∧ (robustify (fun _ => bucket_storage.get store url)).attempts
        = RETRIES_BEFORE_FAILURE + 1
    ∧ ¬ (robustify (fun _ => bucket_storage.get store url)).sleeps = [] := by
  have hget : bucket_storage.get store url
      = Except.error (PyErr.valueError "not enough values to unpack (expected 2, got 1)") := by
    simp [bucket_storage.get, h]
  have hrw : (fun (_ : Nat) => bucket_storage.get store url)
      = (fun (_ : Nat) =>
          (Except.error (PyErr.valueError "not enough values to unpack (expected 2, got 1)") :
            Except PyErr (List Nat))) := by
    funext n
    exact hget
  have hrob := robustify_const_error (α := List Nat)
    (PyErr.valueError "not enough values to unpack (expected 2, got 1)")
  refine ⟨?_, hget, ?_, ?_, ?_, ?_⟩
  · simp only [bucket_storage.list_contents, h]
    congr 1
    simp only [bucket_storage.gcsList]
    congr 1
    apply List.filter_congr
    intro x _
    show (decide (x.1.1 = b) && pfx_le ("" : String).data x.1.2.data) = decide (x.1.1 = b)
    show (decide (x.1.1 = b) && pfx_le [] x.1.2.data) = decide (x.1.1 = b)
    simp [pfx_le]
  · simp [bucket_storage.put, h]
  · simp [bucket_storage.delete, h]
  · rw [hrw, hrob]
  · rw [hrw, hrob]
    decide

/-- Witness for C10 at the concrete path "gs://bucket" over a two-object
store: listing succeeds with the whole bucket, `get` raises the
destructuring ValueError, and the robustified `get` makes 13 attempts. -/
theorem C10_bucket_only_path_witness :
    split_bucket_and_name "gs://bucket" = Except.ok ["bucket"]
    ∧ bucket_storage.get [(("bucket", "a"), [1]), (("zzz", "b"), [2])] "gs://bucket"
        = Except.error (PyErr.valueError "not enough values to unpack (expected 2, got 1)")
    ∧ bucket_storage.list_contents [(("bucket", "a"), [1]), (("zzz", "b"), [2])] "gs://bucket"
        = Except.ok ["a"]
    ∧ (robustify (fun _ =>
        bucket_storage.get [(("bucket", "a"), [1]), (("zzz", "b"), [2])] "gs://bucket")).attempts
        = 13 := by
  have h := C10_bucket_only_path [(("bucket", "a"), [1]), (("zzz", "b"), [2])]
    "gs://bucket" "bucket" [9] (by decide)
  refine ⟨by decide, h.2.1, ?_, ?_⟩
  · rw [h.1]
    decide
  · have h2 := h.2.2.2.2.1
    simpa using h2

/-! ## Association-store lemmas for `move` (C4) -/

/-- Lookup after an overwrite-insert at the inserted key. -/
theorem slookup_sinsert_self {κ ν : Type} [DecidableEq κ]
    (s : List (κ × ν)) (k : κ) (v : ν) : slookup (sinsert s k v) k = some v := by
  simp [sinsert, slookup]

/-- Erasing one key leaves lookups at other keys unchanged. -/
theorem slookup_serase_ne {κ ν : Type} [DecidableEq κ]
    (s : List (κ × ν)) (k k' : κ) (h : k' ≠ k) :
    slookup (serase s k) k' = slookup s k' := by
  induction s with
  | nil => rfl
  | cons e rest ih =>
    rcases e with ⟨ek, ev⟩
    by_cases he : ek = k
    · have hne : ¬ ek = k' := by
        intro hc
        exact h (by rw [← hc, he])
      have h1 : serase ((ek, ev) :: rest) k = serase rest k := by
        simp [serase, List.filter_cons, he]
      rw [h1, ih]
      simp [slookup, hne]
    · have h1 : serase ((ek, ev) :: rest) k = (ek, ev) :: serase rest k := by
        simp [serase, List.filter_cons, he]
      rw [h1]
      by_cases hk : ek = k'
      · simp [slookup, hk]
      · simp [slookup, hk, ih]

/-- Lookup at an erased key yields nothing. -/
theorem slookup_serase_self {κ ν : Type} [DecidableEq κ]
    (s : List (κ × ν)) (k : κ) : slookup (serase s k) k = none := by
  induction s with
  | nil => rfl
  | cons e rest ih =>
    rcases e with ⟨ek, ev⟩
    by_cases he : ek = k
    · have h1 : serase ((ek, ev) :: rest) k = serase rest k := by
        simp [serase, List.filter_cons, he]
      rw [h1]
      exact ih
    · have h1 : serase ((ek, ev) :: rest) k = (ek, ev) :: serase rest k := by
        simp [serase, List.filter_cons, he]
      rw [h1]
      simp [slookup, he]
      exact ih

/-- An object present in the store with a matching bucket and a prefix-matching
name appears in the listing. -/
theorem mem_gcsList_of_entry (s : BStore) (b key p : String) (v : List Nat)
    (hm : ((b, key), v) ∈ s) (hp : pfx_le p.data key.data = true) :
    key ∈ bucket_storage.gcsList s b p := by
  unfold bucket_storage.gcsList
  apply List.mem_map.mpr
  refine ⟨((b, key), v), ?_, rfl⟩
  apply List.mem_filter.mpr
  refine ⟨hm, ?_⟩
  simp [hp]

/-- After erasing the object (b, sk), no listing of bucket b contains the
name sk. -/
theorem not_mem_gcsList_serase (s : BStore) (b sk p : String) :
    sk ∉ bucket_storage.gcsList (serase s (b, sk)) b p := by
  intro hmem
  unfold bucket_storage.gcsList at hmem
  obtain ⟨⟨⟨eb, ek⟩, ev⟩, he, hkey⟩ := List.mem_map.mp hmem
  have hf := List.mem_filter.mp he
  have hb : eb = b := by
    have h2 := hf.2
    simp only [Bool.and_eq_true, decide_eq_true_eq] at h2
    exact h2.1
  have he2 : ((eb, ek), ev) ∈ List.filter (fun e => decide (e.1 ≠ (b, sk))) s := hf.1
  have hne : ((eb, ek) : String × String) ≠ (b, sk) := by
    have h3 := (List.mem_filter.mp he2).2
    exact of_decide_eq_true h3
  apply hne
  have hk2 : ek = sk := hkey
  rw [hb, hk2]

/-- C4 (corrected): `move(src, dst)` copies the object to the key of `dst`
but into the bucket of `src` (`destinationBucket=bucket_name`, the source
bucket), then deletes the source object. When `src` and `dst` are in the
SAME bucket and have different keys, the claim holds: the move succeeds,
`get(dst)` returns the original bytes, the source object is gone (its exact
key no longer lists), and the destination key lists. For different buckets
the claim fails (see the counterexample). -/
theorem C4_move_same_bucket (store : BStore) (src dst b sk dk : String) (v : List Nat)
    (hs : split_bucket_and_name src = Except.ok [b, sk])
    (hd : split_bucket_and_name dst = Except.ok [b, dk])
    (hne : sk ≠ dk)
    (hv : slookup store (b, sk) = some v) :
    bucket_storage.move store src dst
      = Except.ok (serase (sinsert store (b, dk) v) (b, sk))
    ∧ bucket_storage.get (serase (sinsert store (b, dk) v) (b, sk)) dst = Except.ok v
    ∧ slookup (serase (sinsert store (b, dk) v) (b, sk)) (b, sk) = none
    ∧ dk ∈ bucket_storage.gcsList (serase (sinsert store (b, dk) v) (b, sk)) b dk
    ∧ sk ∉ bucket_storage.gcsList (serase (sinsert store (b, dk) v) (b, sk)) b sk := by
  have hpair : ((b, dk) : String × String) ≠ (b, sk) := by
    simp only [ne_eq, Prod.mk.injEq, not_and]
    intro _ hc
    exact hne hc.symm
  refine ⟨?_, ?_, slookup_serase_self _ _, ?_, not_mem_gcsList_serase _ _ _ _⟩
  · simp [bucket_storage.move, hs, hd, hv]
  · have hl : slookup (serase (sinsert store (b, dk) v) (b, sk)) (b, dk) = some v := by
      rw [slookup_serase_ne _ _ _ hpair, slookup_sinsert_self]
    simp [bucket_storage.get, hd, hl]
  · apply mem_gcsList_of_entry _ _ _ _ v
    · apply List.mem_filter.mpr
      refine ⟨List.mem_cons_self _ _, ?_⟩
      simpa using hpair
    · exact pfx_le_refl _

/-- Witness for C4 (amended) at a concrete same-bucket move: moving
gs://bkt/x to gs://bkt/y succeeds, and `get` of the destination returns the
original bytes while the source key is gone. -/
theorem C4_move_same_bucket_witness :
    bucket_storage.move [(("bkt", "x"), [1, 2])] "gs://bkt/x" "gs://bkt/y"
      = Except.ok (serase (sinsert [(("bkt", "x"), [1, 2])] ("bkt", "y") [1, 2]) ("bkt", "x"))
    ∧ bucket_storage.get
        (serase (sinsert [(("bkt", "x"), [1, 2])] ("bkt", "y") [1, 2]) ("bkt", "x"))
        "gs://bkt/y" = Except.ok [1, 2]
    ∧ slookup (serase (sinsert [(("bkt", "x"), [1, 2])] ("bkt", "y") [1, 2]) ("bkt", "x"))
        ("bkt", "x") = none := by
  have h := C4_move_same_bucket [(("bkt", "x"), [1, 2])] "gs://bkt/x" "gs://bkt/y"
    "bkt" "x" "y" [1, 2] (by decide) (by decide) (by decide) (by decide)
  exact ⟨h.1, h.2.1, h.2.2.1⟩

/-- Counterexample to C4 as stated: for the valid paths src = gs://abkt/x
(holding bytes [7]) and dst = gs://bbkt/y in DIFFERENT buckets, the move
"succeeds" but writes the object to bucket abkt (the source bucket) under
key y, so `get(dst)` raises 404 instead of returning the original bytes and
the listing of dst is empty. -/
theorem C4_counterexample :
    bucket_storage.move [(("abkt", "x"), [7])] "gs://abkt/x" "gs://bbkt/y"
      = Except.ok [(("abkt", "y"), [7])]
    ∧ bucket_storage.get [(("abkt", "y"), [7])] "gs://bbkt/y"
      = Except.error (PyErr.httpError 404)
    ∧ bucket_storage.list_contents [(("abkt", "y"), [7])] "gs://bbkt/y"
      = Except.ok [] := by
  exact ⟨by decide, by decide, by decide⟩

/-- C2 (code bug): the orchestrator invokes the backend as
`submit_task(task_name, task_input, task_output)` — three positional
arguments, recorded here by running a one-task job — but the local process
backend's `submit_task` accepts only `(task_input, task_output)`, so the
composed call raises TypeError instead of launching a worker with
`(inputPath, outputPath)`. A direct two-argument call launches the worker
with the documented argument vector, showing the mismatch is in the missing
`task_name` parameter. -/
theorem C2_backend_call_arity_mismatch :
    (job.run_all (job.init "key" "gs://bkt" 2 [5] [] true)).backend_calls
      = [("key-task-", "gs://bkt/key-task-.input", "gs://bkt/key-task-.result")]
    ∧ local_process_backend.submit_task_pycall true
        (pycall_args ("key-task-", "gs://bkt/key-task-.input", "gs://bkt/key-task-.result"))
      = Except.error PyErr.typeError
    ∧ local_process_backend.submit_task_pycall true
        ["gs://bkt/key-task-.input", "gs://bkt/key-task-.result"]
      = Except.ok ["_kubeface-run-task", "gs://bkt/key-task-.input",
          "gs://bkt/key-task-.result", "--delete-input"] := by
  exact ⟨by decide, by decide, by decide⟩

/-! ## Decimal rendering: round-trip and injectivity -/

/-- Decoding inverts the fuelled digit expansion whenever the fuel covers the
number. -/
theorem undigits_natDigitsAux : ∀ (fuel n : Nat), n ≤ fuel →
    undigits (natDigitsAux fuel n) = n := by
  intro fuel
  induction fuel with
  | zero =>
    intro n h
    interval_cases n
    rfl
  | succ m ih =>
    intro n h
    by_cases h0 : n = 0
    · subst h0
      simp [natDigitsAux, undigits]
    · rw [natDigitsAux, if_neg h0, undigits]
      have hdiv : n / 10 ≤ m := by
        have hlt : n / 10 < n := Nat.div_lt_self (Nat.pos_of_ne_zero h0) (by norm_num)
        omega
      rw [ih (n / 10) hdiv]
      omega

/-- Decoding inverts `natDigits`. -/
theorem undigits_natDigits (n : Nat) : undigits (natDigits n) = n :=
  undigits_natDigitsAux n n le_rfl

/-- Every digit produced by the fuelled expansion is below 10. -/
theorem natDigitsAux_lt : ∀ (fuel n d : Nat), d ∈ natDigitsAux fuel n → d < 10 := by
  intro fuel
  induction fuel with
  | zero =>
    intro n d hd
    simp [natDigitsAux] at hd
  | succ m ih =>
    intro n d hd
    rw [natDigitsAux] at hd
    by_cases h0 : n = 0
    · simp [h0] at hd
    · rw [if_neg h0] at hd
      rcases List.mem_cons.mp hd with h | h
      · subst h
        exact Nat.mod_lt _ (by norm_num)
      · exact ih _ _ h

/-- Every digit of `natDigits` is below 10. -/
theorem natDigits_lt (n d : Nat) (h : d ∈ natDigits n) : d < 10 :=
  natDigitsAux_lt n n d h

/-- `digitChar` is injective on digits. -/
theorem digitChar_inj {a b : Nat} (ha : a < 10) (hb : b < 10) :
    digitChar a = digitChar b → a = b := by
  interval_cases a <;> interval_cases b <;> decide

/-- No digit character is a slash. -/
theorem digitChar_ne_slash {d : Nat} (h : d < 10) : digitChar d ≠ '/' := by
  interval_cases d <;> decide

/-- Mapping `digitChar` over digit lists is injective. -/
theorem map_digitChar_inj : ∀ (l1 l2 : List Nat),
    (∀ d ∈ l1, d < 10) → (∀ d ∈ l2, d < 10) →
    l1.map digitChar = l2.map digitChar → l1 = l2 := by
  intro l1
  induction l1 with
  | nil =>
    intro l2 _ _ h
    cases l2 with
    | nil => rfl
    | cons b bs => simp at h
  | cons a as ih =>
    intro l2 h1 h2 h
    cases l2 with
    | nil => simp at h
    | cons b bs =>
      simp only [List.map_cons, List.cons.injEq] at h
      have hab : a = b :=
        digitChar_inj (h1 a (List.mem_cons_self _ _)) (h2 b (List.mem_cons_self _ _)) h.1
      have hrest := ih bs (fun d hd => h1 d (List.mem_cons_of_mem _ hd))
        (fun d hd => h2 d (List.mem_cons_of_mem _ hd)) h.2
      rw [hab, hrest]

/-- `natToStr` is injective. -/
theorem natToStr_injective : Function.Injective natToStr := by
  intro m n h
  unfold natToStr at h
  have hdata : ((natDigits m).reverse.map digitChar) = ((natDigits n).reverse.map digitChar) := by
    injection h
  have hrev : (natDigits m).reverse = (natDigits n).reverse := by
    apply map_digitChar_inj
    · intro d hd
      exact natDigits_lt m d (List.mem_reverse.mp hd)
    · intro d hd
      exact natDigits_lt n d (List.mem_reverse.mp hd)
    · exact hdata
  have hdig : natDigits m = natDigits n := List.reverse_injective hrev
  have := congrArg undigits hdig
  rwa [undigits_natDigits, undigits_natDigits] at this

/-! ## Naming lemmas: injectivity, slash-freedom, round-trip -/

/-- For a fixed cache key, task names are injective in the index: equal names
force equal indices (the monotone counter therefore yields pairwise distinct
names). -/
theorem make_task_name_inj (k : String) :
    Function.Injective (naming.make_task_name k) := by
  intro i j h
  apply natToStr_injective
  apply String.ext
  have hdata := congrArg String.data h
  simp only [naming.make_task_name, String.data_append] at hdata
  simp only [List.append_assoc] at hdata
  have h1 := List.append_cancel_left hdata
  exact List.append_cancel_left h1

/-- The decimal rendering contains no slash. -/
theorem natToStr_no_slash (n : Nat) : ∀ c ∈ (natToStr n).data, c ≠ '/' := by
  intro c hc
  unfold natToStr at hc
  obtain ⟨d, hd, hdc⟩ := List.mem_map.mp hc
  have hlt : d < 10 := natDigits_lt n d (List.mem_reverse.mp hd)
  rw [← hdc]
  exact digitChar_ne_slash hlt

/-- Task names built from a slash-free cache key are slash-free. -/
theorem make_task_name_no_slash (k : String) (hk : ∀ c ∈ k.data, c ≠ '/')
    (i : Nat) : ∀ c ∈ (naming.make_task_name k i).data, c ≠ '/' := by
  intro c hc
  simp only [naming.make_task_name, String.data_append] at hc
  rcases List.mem_append.mp hc with h | h
  · rcases List.mem_append.mp h with h2 | h2
    · exact hk c h2
    · exact (by decide : ∀ x ∈ ("-task-" : String).data, x ≠ '/') c h2
  · exact natToStr_no_slash i c h

/-- Result names of slash-free task names are slash-free. -/
theorem task_result_name_no_slash (t : String) (ht : ∀ c ∈ t.data, c ≠ '/') :
    ∀ c ∈ (naming.task_result_name t).data, c ≠ '/' := by
  intro c hc
  simp only [naming.task_result_name, String.data_append] at hc
  rcases List.mem_append.mp hc with h | h
  · exact ht c h
  · exact (by decide : ∀ x ∈ (".result" : String).data, x ≠ '/') c h

/-- `takeWhile` takes a whole block of satisfying elements up to the first
failing one. -/
theorem takeWhile_all_append {p : Char → Bool} :
    ∀ (xs : List Char) (y : Char) (ys : List Char),
    (∀ c ∈ xs, p c = true) → p y = false →
    (xs ++ y :: ys).takeWhile p = xs := by
  intro xs
  induction xs with
  | nil =>
    intro y ys _ hy
    simp [List.takeWhile_cons, hy]
  | cons a as ih =>
    intro y ys h hy
    rw [List.cons_append, List.takeWhile_cons, if_pos (h a (List.mem_cons_self _ _))]
    rw [ih y ys (fun c hc => h c (List.mem_cons_of_mem _ hc)) hy]

/-- `basename` of a path whose final component is slash-free is that final
component. -/
theorem basename_append (pre f : List Char) (hf : ∀ c ∈ f, c ≠ '/') :
    naming.basename (pre ++ '/' :: f) = f := by
  unfold naming.basename
  have h1 : (pre ++ '/' :: f).reverse = f.reverse ++ '/' :: pre.reverse := by
    rw [List.reverse_append, List.reverse_cons, List.append_assoc]
    rfl
  rw [h1, takeWhile_all_append f.reverse '/' pre.reverse
        (fun c hc => by
          have h2 := hf c (List.mem_reverse.mp hc)
          simpa using h2)
        (by decide)]
  exact List.reverse_reverse f

/-- Round-trip: `task_name_from_result_name` recovers a slash-free task name
from its result path under any storage prefix. -/
theorem task_name_from_result_name_spath (pfxs t : String)
    (ht : ∀ c ∈ t.data, c ≠ '/') :
    naming.task_name_from_result_name (spath pfxs (naming.task_result_name t)) = t := by
  unfold naming.task_name_from_result_name
  have hdata : (spath pfxs (naming.task_result_name t)).data
      = pfxs.data ++ '/' :: (t.data ++ (".result" : String).data) := by
    simp [spath, naming.task_result_name, String.data_append]
  have hsf : ∀ c ∈ t.data ++ (".result" : String).data, c ≠ '/' := by
    intro c hc
    apply task_result_name_no_slash t ht
    simp only [naming.task_result_name, String.data_append]
    exact hc
  rw [hdata, basename_append pfxs.data _ hsf]
  have h7 : (".result" : String).data.length = 7 := rfl
  have hlen : (t.data ++ (".result" : String).data).length
      - (".result" : String).data.length = t.data.length := by
    rw [List.length_append, h7]
    omega
  rw [hlen, List.take_left]

/-- Distinct task names have distinct result paths under a common prefix. -/
theorem spath_result_inj (pfxs a b : String)
    (h : spath pfxs (naming.task_result_name a) = spath pfxs (naming.task_result_name b)) :
    a = b := by
  apply String.ext
  have hd := congrArg String.data h
  simp only [spath, naming.task_result_name, String.data_append, List.append_assoc] at hd
  have h1 := List.append_cancel_left hd
  have h2 := List.append_cancel_left h1
  exact List.append_cancel_right h2

/-! ## Job-level storage lemmas -/

/-- `js_get` agrees with the generic association lookup. -/
theorem js_get_eq_slookup : ∀ (s : JStore) (k : String), js_get s k = slookup s k := by
  intro s k
  induction s with
  | nil => rfl
  | cons e rest ih =>
    rcases e with ⟨ek, ev⟩
    rw [js_get, slookup, ih]

/-- A successful lookup exhibits a store entry. -/
theorem js_get_mem (s : JStore) (k : String) (v : Nat) (h : js_get s k = some v) :
    (k, v) ∈ s := by
  induction s with
  | nil => simp [js_get] at h
  | cons e rest ih =>
    rcases e with ⟨ek, ev⟩
    rw [js_get] at h
    by_cases hk : ek = k
    · rw [if_pos hk] at h
      injection h with h2
      rw [← hk, ← h2]
      exact List.mem_cons_self _ _
    · rw [if_neg hk] at h
      exact List.mem_cons_of_mem _ (ih h)

/-- Deleting one path leaves lookups at other paths unchanged. -/
theorem js_get_delete_ne (s : JStore) (k k' : String) (h : k' ≠ k) :
    js_get (js_delete s k) k' = js_get s k' := by
  rw [js_get_eq_slookup, js_get_eq_slookup]
  exact slookup_serase_ne s k k' h

/-- A present entry whose path extends the listing prefix is listed. -/
theorem mem_js_list_of_entry (s : JStore) (k p : String) (v : Nat)
    (hm : (k, v) ∈ s) (hp : pfx_le p.data k.data = true) : k ∈ js_list s p := by
  unfold js_list
  exact List.mem_map.mpr ⟨(k, v), List.mem_filter.mpr ⟨hm, hp⟩, rfl⟩

/-- A stored result object for task index `i` puts the task's name into the
completed set that `get_completed_tasks` derives from the listing. -/
theorem mem_completed_of_entry (j : JobState)
    (hk : ∀ c ∈ j.cache_key.data, c ≠ '/') (i : Nat) (v : Nat)
    (hv : (spath j.storage_pfx
      (naming.task_result_name (naming.make_task_name j.cache_key i)), v) ∈ j.store) :
    naming.make_task_name j.cache_key i ∈ job.get_completed_tasks j := by
  unfold job.get_completed_tasks
  apply List.mem_map.mpr
  refine ⟨spath j.storage_pfx
    (naming.task_result_name (naming.make_task_name j.cache_key i)), ?_, ?_⟩
  · apply mem_js_list_of_entry _ _ _ v hv
    have hshape : (spath j.storage_pfx
        (naming.task_result_name (naming.make_task_name j.cache_key i))).data
        = (spath j.storage_pfx (naming.task_result_pfx j.cache_key)).data
          ++ ((natToStr i).data ++ (".result" : String).data) := by
      simp [spath, naming.task_result_name, naming.make_task_name,
        naming.task_result_pfx, String.data_append, List.append_assoc]
    rw [hshape]
    exact pfx_le_append _ _
  · exact task_name_from_result_name_spath _ _ (make_task_name_no_slash _ hk i)

/-! ## Submission-loop lemmas -/

/-- `submit_one_task` on an exhausted source returns False and leaves the
job unchanged. -/
theorem submit_one_task_nil (j : JobState) (c : Option (List String))
    (h : j.tasks_iter = []) : job.submit_one_task j c = (false, j) := by
  simp [job.submit_one_task, h]

/-- `submit_one_task` on a non-empty source pulls one task, derives the name
from the counter `len(submitted_tasks)`, appends it to `submitted_tasks`
(whether reused or newly submitted), and leaves the configuration fields
unchanged. -/
theorem submit_one_task_cons (j : JobState) (c : Option (List String))
    (task : Nat) (rest : List Nat) (h : j.tasks_iter = task :: rest) :
    (job.submit_one_task j c).1 = true
    ∧ (job.submit_one_task j c).2.tasks_iter = rest
    ∧ (job.submit_one_task j c).2.submitted_tasks
        = j.submitted_tasks ++ [naming.make_task_name j.cache_key j.submitted_tasks.length]
    ∧ (job.submit_one_task j c).2.cache_key = j.cache_key
    ∧ (job.submit_one_task j c).2.storage_pfx = j.storage_pfx
    ∧ (job.submit_one_task j c).2.cleanup = j.cleanup
    ∧ (job.submit_one_task j c).2.max_simultaneous_tasks = j.max_simultaneous_tasks := by
  simp only [job.submit_one_task, h]
  split <;> simp

/-- When the derived name is already in the completed set passed by `wait`
or computed from a fresh listing, `submit_one_task` records the task as
reused and changes nothing else: no upload, no backend call. -/
theorem submit_one_task_none_reused (j : JobState) (task : Nat) (rest : List Nat)
    (h : j.tasks_iter = task :: rest)
    (hmem : naming.make_task_name j.cache_key j.submitted_tasks.length
      ∈ job.get_completed_tasks j) :
    job.submit_one_task j none =
      (true, { j with
        tasks_iter := rest
        reused_tasks := j.reused_tasks
          ++ [naming.make_task_name j.cache_key j.submitted_tasks.length]
        submitted_tasks := j.submitted_tasks
          ++ [naming.make_task_name j.cache_key j.submitted_tasks.length] }) := by
  simp [job.submit_one_task, h, hmem]

/-- Splitting one step off a `range'`-indexed name block. -/
theorem append_singleton_range' (su : List String) (f : Nat → String) (n : Nat) :
    (su ++ [f su.length]) ++ (List.range' (su ++ [f su.length]).length n).map f
      = su ++ (List.range' su.length (n + 1)).map f := by
  rw [List.append_assoc, List.length_append]
  simp [List.range'_succ]

/-- Running the whole source appends exactly one name per pulled task, in
pull order, indexed by the monotone counter; the configuration fields are
preserved. -/
theorem run_all_fuel_submitted : ∀ (ts : List Nat) (j : JobState),
    j.tasks_iter = ts →
    (job.run_all_fuel ts.length j).submitted_tasks
      = j.submitted_tasks ++ (List.range' j.submitted_tasks.length ts.length).map
          (naming.make_task_name j.cache_key)
    ∧ (job.run_all_fuel ts.length j).cache_key = j.cache_key
    ∧ (job.run_all_fuel ts.length j).storage_pfx = j.storage_pfx
    ∧ (job.run_all_fuel ts.length j).cleanup = j.cleanup := by
  intro ts
  induction ts with
  | nil =>
    intro j h
    simp [job.run_all_fuel]
  | cons task rest ih =>
    intro j h
    rw [List.length_cons, job.run_all_fuel]
    obtain ⟨h1, h2, h3, h4, h5, h6, h7⟩ := submit_one_task_cons j none task rest h
    obtain ⟨i1, i2, i3, i4⟩ := ih (job.submit_one_task j none).2 h2
    refine ⟨?_, by rw [i2, h4], by rw [i3, h5], by rw [i4, h6]⟩
    rw [i1, h3, h4]
    exact append_singleton_range' j.submitted_tasks
      (naming.make_task_name j.cache_key) rest.length

/-- C9 (confirmed): within a single job run every pulled task, reused or
newly submitted, is assigned the next index by the monotone counter — the
(i+1)-th pull gets index i, starting at 0 — so the submitted-name sequence
is exactly `make_task_name(cacheKey, 0..n-1)` in pull order and the names
are pairwise distinct. -/
theorem C9_task_indices_pull_order (k p : String) (m : Nat) (ts : List Nat)
    (store0 : JStore) (cl : Bool) :
    (job.run_all (job.init k p m ts store0 cl)).submitted_tasks
      = (List.range ts.length).map (naming.make_task_name k)
    ∧ ((job.run_all (job.init k p m ts store0 cl)).submitted_tasks).Nodup := by
  have h := run_all_fuel_submitted ts (job.init k p m ts store0 cl) rfl
  have h1 : (job.run_all (job.init k p m ts store0 cl)).submitted_tasks
      = (List.range' 0 ts.length).map (naming.make_task_name k) := by
    have h2 := h.1
    simpa [job.run_all, job.init] using h2
  constructor
  · rw [h1, List.range_eq_range']
  · rw [h1]
    apply List.Nodup.map (make_task_name_inj k)
    rw [← List.range_eq_range']
    exact List.nodup_range _

/-- Splitting one step off a `range'`-indexed name block, prepended to an
arbitrary accumulator. -/
theorem cons_range'_map (pre : List String) (f : Nat → String) (s n : Nat) :
    (pre ++ [f s]) ++ (List.range' (s + 1) n).map f
      = pre ++ (List.range' s (n + 1)).map f := by
  rw [List.append_assoc]
  simp [List.range'_succ]

/-- When every upcoming task name is already in the completed set, the whole
run takes the reuse branch on every pull: every pulled name is appended to
both `submitted_tasks` and `reused_tasks`, and the store, the backend calls
and every other field are left untouched. -/
theorem run_all_fuel_reuse : ∀ (ts : List Nat) (j : JobState),
    j.tasks_iter = ts →
    (∀ i, i < j.submitted_tasks.length + ts.length →
      naming.make_task_name j.cache_key i ∈ job.get_completed_tasks j) →
    job.run_all_fuel ts.length j =
      { j with
        tasks_iter := ([] : List Nat)
        submitted_tasks := j.submitted_tasks ++
          (List.range' j.submitted_tasks.length ts.length).map
            (naming.make_task_name j.cache_key)
        reused_tasks := j.reused_tasks ++
          (List.range' j.submitted_tasks.length ts.length).map
            (naming.make_task_name j.cache_key) } := by
  intro ts
  induction ts with
  | nil =>
    intro j h hc
    obtain ⟨ck, sp, ms, cl, ti, su, ru, bc, st⟩ := j
    simp only at h
    subst h
    simp [job.run_all_fuel]
  | cons task rest ih =>
    intro j h hc
    obtain ⟨ck, sp, ms, cl, ti, su, ru, bc, st⟩ := j
    simp only at h
    subst h
    rw [List.length_cons, job.run_all_fuel]
    have hmem := hc su.length (by simp)
    rw [submit_one_task_none_reused _ task rest rfl hmem]
    dsimp only
    have ihj := ih ⟨ck, sp, ms, cl, rest,
        su ++ [naming.make_task_name ck su.length],
        ru ++ [naming.make_task_name ck su.length], bc, st⟩ rfl
      (fun i hi => hc i (by simp at hi ⊢; omega))
    rw [ihj]
    dsimp only
    simp only [List.length_append, List.length_cons, List.length_nil]
    congr 1
    · exact cons_range'_map su (naming.make_task_name ck) su.length rest.length
    · exact cons_range'_map ru (naming.make_task_name ck) su.length rest.length

/-- C6 (confirmed): when a pulled task's name is already in the completed set
the orchestrator records it as reused and neither uploads its input nor
invokes the backend; consequently, re-running a job with the same cache key
over an identical task source, with the first run's outputs still in
storage, produces zero backend submissions, leaves the store untouched, and
ends with the reused set equal to the full submitted set (all pulled names,
in pull order). -/
theorem C6_rerun_reuses_everything (k p : String) (m : Nat) (ts : List Nat)
    (cl : Bool) (w : Nat → Nat) (hk : ∀ c ∈ k.data, c ≠ '/') :
    (job.run_all (job.init k p m ts
        ((List.range ts.length).map (fun i =>
          (spath p (naming.task_result_name (naming.make_task_name k i)), w i))) cl)).backend_calls
      = []
    ∧ (job.run_all (job.init k p m ts
        ((List.range ts.length).map (fun i =>
          (spath p (naming.task_result_name (naming.make_task_name k i)), w i))) cl)).store
      = (List.range ts.length).map (fun i =>
          (spath p (naming.task_result_name (naming.make_task_name k i)), w i))
    ∧ (job.run_all (job.init k p m ts
        ((List.range ts.length).map (fun i =>
          (spath p (naming.task_result_name (naming.make_task_name k i)), w i))) cl)).reused_tasks
      = (job.run_all (job.init k p m ts
        ((List.range ts.length).map (fun i =>
          (spath p (naming.task_result_name (naming.make_task_name k i)), w i))) cl)).submitted_tasks
    ∧ (job.run_all (job.init k p m ts
        ((List.range ts.length).map (fun i =>
          (spath p (naming.task_result_name (naming.make_task_name k i)), w i))) cl)).submitted_tasks
      = (List.range ts.length).map (naming.make_task_name k) := by
  have hyp : ∀ i, i < (job.init k p m ts
      ((List.range ts.length).map (fun i =>
        (spath p (naming.task_result_name (naming.make_task_name k i)), w i))) cl).submitted_tasks.length
        + ts.length →
      naming.make_task_name (job.init k p m ts
        ((List.range ts.length).map (fun i =>
          (spath p (naming.task_result_name (naming.make_task_name k i)), w i))) cl).cache_key i
        ∈ job.get_completed_tasks (job.init k p m ts
            ((List.range ts.length).map (fun i =>
              (spath p (naming.task_result_name (naming.make_task_name k i)), w i))) cl) := by
    intro i hi
    apply mem_completed_of_entry _ hk i (w i)
    show (spath p (naming.task_result_name (naming.make_task_name k i)), w i)
      ∈ (List.range ts.length).map (fun i =>
          (spath p (naming.task_result_name (naming.make_task_name k i)), w i))
    apply List.mem_map.mpr
    refine ⟨i, List.mem_range.mpr ?_, rfl⟩
    simpa [job.init] using hi
  have hrun := run_all_fuel_reuse ts (job.init k p m ts
      ((List.range ts.length).map (fun i =>
        (spath p (naming.task_result_name (naming.make_task_name k i)), w i))) cl) rfl hyp
  have heq : job.run_all (job.init k p m ts
      ((List.range ts.length).map (fun i =>
        (spath p (naming.task_result_name (naming.make_task_name k i)), w i))) cl)
      = job.run_all_fuel ts.length (job.init k p m ts
        ((List.range ts.length).map (fun i =>
          (spath p (naming.task_result_name (naming.make_task_name k i)), w i))) cl) := rfl
  rw [heq, hrun]
  refine ⟨rfl, rfl, rfl, ?_⟩
  simp [job.init, List.range_eq_range']

/-- Witness for C6 at a concrete two-task re-run whose two outputs are
already in storage: no backend call is made and the reused set equals the
submitted set. -/
theorem C6_rerun_reuses_everything_witness :
    (job.run_all (job.init "key" "gs://bkt" 2 [3, 4]
        ((List.range ([3, 4] : List Nat).length).map (fun i =>
          (spath "gs://bkt" (naming.task_result_name (naming.make_task_name "key" i)),
            i + 100))) true)).backend_calls = []
    ∧ (job.run_all (job.init "key" "gs://bkt" 2 [3, 4]
        ((List.range ([3, 4] : List Nat).length).map (fun i =>
          (spath "gs://bkt" (naming.task_result_name (naming.make_task_name "key" i)),
            i + 100))) true)).reused_tasks
      = (job.run_all (job.init "key" "gs://bkt" 2 [3, 4]
        ((List.range ([3, 4] : List Nat).length).map (fun i =>
          (spath "gs://bkt" (naming.task_result_name (naming.make_task_name "key" i)),
            i + 100))) true)).submitted_tasks := by
  have h := C6_rerun_reuses_everything "key" "gs://bkt" 2 [3, 4] true
    (fun i => i + 100) (by decide)
  exact ⟨h.1, h.2.2.1⟩

/-- The `results` download loop yields the stored (decoded) value of every
listed task in order, when each task's result object is present and the
task names are pairwise distinct (cleanup deletions then never shadow a
later download). -/
theorem results_loop_ok (p : String) (cl : Bool) :
    ∀ (pairs : List (String × Nat)) (st : JStore),
      (pairs.map Prod.fst).Nodup →
      (∀ q ∈ pairs, js_get st (spath p (naming.task_result_name q.1)) = some q.2) →
      job.results_loop p cl st (pairs.map Prod.fst)
        = Except.ok (pairs.map (fun q => serialization.load q.2)) := by
  intro pairs
  induction pairs with
  | nil =>
    intro st _ _
    rfl
  | cons q rest ih =>
    intro st hnd hall
    rcases q with ⟨t, v⟩
    simp only [List.map_cons] at hnd ⊢
    rw [job.results_loop]
    dsimp only
    rw [hall (t, v) (List.mem_cons_self _ _)]
    have hrest : ∀ q ∈ rest,
        js_get (if cl then js_delete st (spath p (naming.task_result_name t)) else st)
          (spath p (naming.task_result_name q.1)) = some q.2 := by
      intro q hq
      by_cases hcl : cl
      · rw [if_pos hcl, js_get_delete_ne]
        · exact hall q (List.mem_cons_of_mem _ hq)
        · intro hc
          have hq1 := spath_result_inj p q.1 t hc
          apply (List.nodup_cons.mp hnd).1
          rw [← hq1]
          exact List.mem_map_of_mem Prod.fst hq
      · rw [if_neg hcl]
        exact hall q (List.mem_cons_of_mem _ hq)
    rw [ih _ (List.nodup_cons.mp hnd).2 hrest]

/-- For a job whose submitted names are the counter-indexed names 0..n-1 and
whose store holds a result object for each of them, `results` succeeds and
yields the decoded stored values in index order. -/
theorem results_ok_of_all_present (j : JobState)
    (hk : ∀ c ∈ j.cache_key.data, c ≠ '/') (n : Nat) (w : Nat → Nat)
    (hsub : j.submitted_tasks = (List.range n).map (naming.make_task_name j.cache_key))
    (hres : ∀ i, i < n → js_get j.store
      (spath j.storage_pfx (naming.task_result_name (naming.make_task_name j.cache_key i)))
        = some (w i)) :
    job.results j = Except.ok ((List.range n).map (fun i => serialization.load (w i))) := by
  have hcompl : ∀ i, i < n →
      naming.make_task_name j.cache_key i ∈ job.get_completed_tasks j := by
    intro i hi
    exact mem_completed_of_entry j hk i (w i) (js_get_mem _ _ _ (hres i hi))
  have hrun : job.get_running_tasks j (job.get_completed_tasks j) = [] := by
    unfold job.get_running_tasks
    have hf : j.submitted_tasks.filter
        (fun t => decide (t ∉ job.get_completed_tasks j)) = [] := by
      apply List.filter_eq_nil_iff.mpr
      intro t ht
      rw [hsub] at ht
      obtain ⟨i, hir, hit⟩ := List.mem_map.mp ht
      rw [← hit]
      simp [hcompl i (List.mem_range.mp hir)]
    rw [hf]
    rfl
  unfold job.results
  rw [if_pos hrun, hsub]
  have hpairs : (List.range n).map (naming.make_task_name j.cache_key)
      = ((List.range n).map (fun i => (naming.make_task_name j.cache_key i, w i))).map
          Prod.fst := by
    simp [List.map_map, Function.comp]
  rw [hpairs]
  rw [results_loop_ok j.storage_pfx j.cleanup _ j.store ?nodup ?hall]
  case nodup =>
    rw [← hpairs]
    exact List.Nodup.map (make_task_name_inj j.cache_key) (List.nodup_range n)
  case hall =>
    intro q hq
    obtain ⟨i, hir, hiq⟩ := List.mem_map.mp hq
    rw [← hiq]
    exact hres i (List.mem_range.mp hir)
  simp [List.map_map, Function.comp]

/-- C5 (confirmed): for a job run to completion (every submitted task's
result object present in storage, written by the workers as `store1`), the
result sequence yields the decoded results in submission (pull) order: the
n-th element of `results` is the decoded output of the n-th pulled task,
whatever order the store holds (completion order is irrelevant — presence is
set membership). -/
theorem C5_results_in_pull_order (k p : String) (m : Nat) (ts : List Nat)
    (store0 store1 : JStore) (cl : Bool) (w : Nat → Nat)
    (hk : ∀ c ∈ k.data, c ≠ '/')
    (hres : ∀ i, i < ts.length →
      js_get store1 (spath p (naming.task_result_name (naming.make_task_name k i)))
        = some (w i)) :
    job.results { job.run_all (job.init k p m ts store0 cl) with store := store1 }
      = Except.ok ((List.range ts.length).map (fun i => serialization.load (w i))) := by
  have hall := run_all_fuel_submitted ts (job.init k p m ts store0 cl) rfl
  have hck2 : ({ job.run_all (job.init k p m ts store0 cl) with
      store := store1 } : JobState).cache_key = k := hall.2.1
  have hsp2 : ({ job.run_all (job.init k p m ts store0 cl) with
      store := store1 } : JobState).storage_pfx = p := hall.2.2.1
  have hsub2 : ({ job.run_all (job.init k p m ts store0 cl) with
      store := store1 } : JobState).submitted_tasks
      = (List.range ts.length).map (naming.make_task_name k) := by
    have h2 := hall.1
    simpa [job.init, List.range_eq_range'] using h2
  apply results_ok_of_all_present _ ?hk ts.length w ?hsub ?hres
  case hk =>
    rw [hck2]
    exact hk
  case hsub =>
    rw [hck2]
    exact hsub2
  case hres =>
    intro i hi
    rw [hck2, hsp2]
    exact hres i hi

/-- Witness for C5 at a concrete two-task run whose two result objects sit
in storage in reversed (completion) order: `results` still yields the
decoded values in pull order. -/
theorem C5_results_in_pull_order_witness :
    job.results { job.run_all (job.init "key" "gs://bkt" 2 [3, 4] [] true) with
        store := [("gs://bkt/key-task-1.result", 41), ("gs://bkt/key-task-.result", 40)] }
      = Except.ok [40, 41] := by
  exact C5_results_in_pull_order "key" "gs://bkt" 2 [3, 4] []
    [("gs://bkt/key-task-1.result", 41), ("gs://bkt/key-task-.result", 40)]
    true (fun i => 40 + i) (by decide) (by decide)

/-- C7 (confirmed): result retrieval attempted while at least one submitted
task has no result object in the completed listing fails with the
job-not-complete error (`RuntimeError("Not all tasks have completed")` in
the source); results are only obtainable once no tasks are running. -/
theorem C7_results_requires_done (j : JobState)
    (h : ∃ t, t ∈ j.submitted_tasks ∧ t ∉ job.get_completed_tasks j) :
    job.results j = Except.error job.JobErr.jobNotComplete := by
  obtain ⟨t, ht, hn⟩ := h
  unfold job.results
  rw [if_neg]
  intro hemp
  unfold job.get_running_tasks at hemp
  rw [List.dedup_eq_nil] at hemp
  have hmem : t ∈ j.submitted_tasks.filter
      (fun t => decide (t ∉ job.get_completed_tasks j)) :=
    List.mem_filter.mpr ⟨ht, by simpa using hn⟩
  rw [hemp] at hmem
  exact absurd hmem (List.not_mem_nil t)

/-- Witness for C7 at a concrete job with one submitted task and an empty
store: `results` raises the job-not-complete error. -/
theorem C7_results_requires_done_witness :
    job.results ⟨"k", "gs://b", 1, true, [], ["t0"], [], [], []⟩
      = Except.error job.JobErr.jobNotComplete := by
  exact C7_results_requires_done _ ⟨"t0", by decide, by decide⟩

/-! ## Wait-loop lemmas (C8) -/

/-- `submit_one_task` either reports an exhausted source and changes
nothing, or reports success having appended exactly one name. -/
theorem submit_one_task_cases (j : JobState) (c : Option (List String)) :
    job.submit_one_task j c = (false, j)
    ∨ ((job.submit_one_task j c).1 = true
       ∧ (job.submit_one_task j c).2.submitted_tasks
           = j.submitted_tasks
             ++ [naming.make_task_name j.cache_key j.submitted_tasks.length]
       ∧ (job.submit_one_task j c).2.max_simultaneous_tasks
           = j.max_simultaneous_tasks) := by
  rcases h : j.tasks_iter with _ | ⟨task, rest⟩
  · left
    exact submit_one_task_nil j c h
  · right
    obtain ⟨h1, h2, h3, h4, h5, h6, h7⟩ := submit_one_task_cons j c task rest h
    exact ⟨h1, h3, h7⟩

/-- A batch of up to `n` submissions appends at most `n` names and keeps the
concurrency limit. -/
theorem submit_batch_shape (c : List String) : ∀ (n : Nat) (j : JobState),
    ∃ ns : List String,
      (job.submit_batch j c n).2.submitted_tasks = j.submitted_tasks ++ ns
      ∧ ns.length ≤ n
      ∧ (job.submit_batch j c n).2.max_simultaneous_tasks
          = j.max_simultaneous_tasks := by
  intro n
  induction n with
  | zero =>
    intro j
    exact ⟨[], by simp [job.submit_batch], by simp, by simp [job.submit_batch]⟩
  | succ m ih =>
    intro j
    rw [job.submit_batch]
    rcases submit_one_task_cases j (some c) with h | ⟨h1, h2, h3⟩
    · rw [h]
      exact ⟨[], by simp, by simp, rfl⟩
    · have hps : job.submit_one_task j (some c)
          = (true, (job.submit_one_task j (some c)).2) := by
        rw [← h1]
      rw [hps]
      obtain ⟨ns, i1, i2, i3⟩ := ih (job.submit_one_task j (some c)).2
      refine ⟨[naming.make_task_name j.cache_key j.submitted_tasks.length] ++ ns,
        ?_, ?_, ?_⟩
      · show (job.submit_batch (job.submit_one_task j (some c)).2 c m).2.submitted_tasks
          = _
        rw [i1, h2, List.append_assoc]
      · simp only [List.length_append, List.length_singleton]
        omega
      · show (job.submit_batch (job.submit_one_task j (some c)).2 c m).2.max_simultaneous_tasks
          = _
        rw [i3, h3]

/-- Dedup of an appended list is at most the dedup of the first part plus
the raw length of the second. -/
theorem dedup_append_le {α : Type} [DecidableEq α] (a b : List α) :
    (a ++ b).dedup.length ≤ a.dedup.length + b.length := by
  calc (a ++ b).dedup.length = (a ++ b).toFinset.card := (List.card_toFinset _).symm
    _ = (a.toFinset ∪ b.toFinset).card := by rw [List.toFinset_append]
    _ ≤ a.toFinset.card + b.toFinset.card := Finset.card_union_le _ _
    _ ≤ a.dedup.length + b.length := by
        rw [List.card_toFinset]
        exact Nat.add_le_add_left (List.toFinset_card_le _) _

/-- Appending names to `submitted_tasks` grows the running set (against a
fixed completed snapshot) by at most the number of appended names. -/
theorem running_length_append (j j2 : JobState) (c ns : List String)
    (h : j2.submitted_tasks = j.submitted_tasks ++ ns) :
    (job.get_running_tasks j2 c).length
      ≤ (job.get_running_tasks j c).length + ns.length := by
  unfold job.get_running_tasks
  rw [h, List.filter_append]
  calc ((j.submitted_tasks.filter (fun t => decide (t ∉ c)))
        ++ (ns.filter (fun t => decide (t ∉ c)))).dedup.length
      ≤ (j.submitted_tasks.filter (fun t => decide (t ∉ c))).dedup.length
        + (ns.filter (fun t => decide (t ∉ c))).length := dedup_append_le _ _
    _ ≤ (j.submitted_tasks.filter (fun t => decide (t ∉ c))).dedup.length
        + ns.length := Nat.add_le_add_left (List.length_filter_le _ _) _

/-- With zero slots the poll sleeps and changes nothing. -/
theorem wait_poll_sleep (j : JobState)
    (h : j.max_simultaneous_tasks
      - (job.get_running_tasks j (job.get_completed_tasks j)).length = 0) :
    job.wait_poll j = (job.WaitAction.sleepPoll, j) := by
  unfold job.wait_poll
  rw [if_pos h]

/-- With nonzero slots the poll's resulting state is the batch's resulting
state. -/
theorem wait_poll_snd (j : JobState)
    (h : ¬ j.max_simultaneous_tasks
      - (job.get_running_tasks j (job.get_completed_tasks j)).length = 0) :
    (job.wait_poll j).2
      = (job.submit_batch j (job.get_completed_tasks j)
          (j.max_simultaneous_tasks
            - (job.get_running_tasks j (job.get_completed_tasks j)).length)).2 := by
  unfold job.wait_poll
  rw [if_neg h]
  rcases hb : job.submit_batch j (job.get_completed_tasks j)
      (j.max_simultaneous_tasks
        - (job.get_running_tasks j (job.get_completed_tasks j)).length) with ⟨b, j2⟩
  cases b <;> simp

/-- C8 (confirmed): at every poll the loop computes
`slots = max(0, maxSimultaneousTasks - |running|)` from a fresh listing
(Nat subtraction is the max(0, ·)), sleeps for the poll interval when slots
is zero (submitting nothing), and otherwise submits at most `slots` tasks
against that snapshot before listing again; consequently the running count
measured against the snapshot grows by at most the batch size, and with a
nonzero slot count it never exceeds `maxSimultaneousTasks`. -/
theorem C8_soft_concurrency_bound (j : JobState) :
    ((j.max_simultaneous_tasks
        - (job.get_running_tasks j (job.get_completed_tasks j)).length = 0)
      → job.wait_poll j = (job.WaitAction.sleepPoll, j))
    ∧ (job.wait_poll j).2.submitted_tasks.length
        ≤ j.submitted_tasks.length
          + (j.max_simultaneous_tasks
              - (job.get_running_tasks j (job.get_completed_tasks j)).length)
    ∧ (job.get_running_tasks (job.wait_poll j).2 (job.get_completed_tasks j)).length
        ≤ (job.get_running_tasks j (job.get_completed_tasks j)).length
          + ((job.wait_poll j).2.submitted_tasks.length - j.submitted_tasks.length)
    ∧ (0 < j.max_simultaneous_tasks
        - (job.get_running_tasks j (job.get_completed_tasks j)).length
      → (job.get_running_tasks (job.wait_poll j).2 (job.get_completed_tasks j)).length
          ≤ j.max_simultaneous_tasks) := by
  by_cases h0 : j.max_simultaneous_tasks
      - (job.get_running_tasks j (job.get_completed_tasks j)).length = 0
  · have hs := wait_poll_sleep j h0
    refine ⟨fun _ => hs, ?_, ?_, ?_⟩
    · rw [hs, h0]
      simp
    · rw [hs]
      dsimp only
      omega
    · intro hpos
      omega
  · have hsnd := wait_poll_snd j h0
    obtain ⟨ns, i1, i2, i3⟩ := submit_batch_shape (job.get_completed_tasks j)
      (j.max_simultaneous_tasks
        - (job.get_running_tasks j (job.get_completed_tasks j)).length) j
    have hsub2 : (job.wait_poll j).2.submitted_tasks = j.submitted_tasks ++ ns := by
      rw [hsnd]
      exact i1
    have hlen : (job.wait_poll j).2.submitted_tasks.length
        = j.submitted_tasks.length + ns.length := by
      rw [hsub2, List.length_append]
    have hrun := running_length_append j (job.wait_poll j).2
      (job.get_completed_tasks j) ns hsub2
    refine ⟨fun hc => absurd hc h0, ?_, ?_, ?_⟩
    · rw [hlen]
      omega
    · rw [hlen]
      omega
    · intro hpos
      omega
